import Mathlib

/-!
The read step of the script (line 18) opens the input file with
`encoding='utf-8', errors='ignore'`: bytes that do not form valid UTF-8 are
dropped and decoding continues after them, following CPython's maximal-subpart
error handling.  The decoder below works on byte lists and produces the list
of decoded scalar values; `utf8DecodeStrict` is the same scan with the
`strict` error handler (it fails on the first invalid sequence), used to state
what "dropping the undecodable bytes" means.
-/

namespace ExtractEmail

/-- A node of the parsed MIME message tree.  A `leaf` carries its declared
content type and its decoded textual body (what `part.get_content()` returns
for a text part); a `multi` node is a multipart container with its declared
content type and the ordered list of sub-parts. -/
inductive MimeNode where
  | leaf (contentType : String) (body : String)
  | multi (contentType : String) (children : List MimeNode)

/-- The parsed message: optional `Subject` and `From` headers plus the body
tree.  Models the object returned by `email.message_from_file`. -/
structure Message where
  subject : Option String
  fromAddr : Option String
  root : MimeNode

/-- `part.get_content_type()`: the declared MIME type of a node. -/
def MimeNode.getContentType : MimeNode → String
  | .leaf ct _ => ct
  | .multi ct _ => ct

/-- `part.get_content()` on a `text/*` leaf: the decoded string body.  This
`String`-typed accessor models only the `text/*` case, which is the only one
the walk loop (lines 30-37) reaches it through - the loop calls
`get_content()` solely on parts whose type is `text/html` or `text/plain`,
for which the library always returns `str`.  For a non-text single-part
message `get_content()` returns `bytes` instead; that case is modelled
separately by `Payload` / `runSinglePart` below, because the text-mode
`f.write` then raises `TypeError`.  (The script also never calls
`get_content()` on a multipart container: well-formed containers carry a
`multipart/...` content type, which matches neither actioned type; the `""`
returned here for a container is unreachable in the claims below, which
assume well-formedness where it could matter.) -/
def MimeNode.getContent : MimeNode → String
  | .leaf _ b => b
  | .multi _ _ => ""

/-- `msg.is_multipart()`: the payload is a list of sub-parts. -/
def Message.isMultipart (m : Message) : Bool :=
  match m.root with
  | .multi _ _ => true
  | .leaf _ _ => false

mutual

/-- `msg.walk()`: depth-first traversal in document order, yielding the node
itself first and then, for a container, every descendant. -/
def MimeNode.walk : MimeNode → List MimeNode
  | .leaf ct b => [MimeNode.leaf ct b]
  | .multi ct cs => MimeNode.multi ct cs :: walkList cs

/-- Traversal of a list of sibling parts, in order. -/
def walkList : List MimeNode → List MimeNode
  | [] => []
  | n :: ns => n.walk ++ walkList ns

end

/-- Whether a content type string is of the `multipart/...` family (the check
is on the underlying character list so that it evaluates by `decide`). -/
def isMultipartType (ct : String) : Bool :=
  ct.data.take 10 == "multipart/".data

mutual

/-- Well-formedness of a parsed tree: multipart containers (the only nodes the
parser builds with children) declare a `multipart/...` content type. -/
def MimeNode.wf : MimeNode → Bool
  | .leaf _ _ => true
  | .multi ct cs => isMultipartType ct && wfList cs

/-- Well-formedness of a list of sibling parts. -/
def wfList : List MimeNode → Bool
  | [] => true
  | n :: ns => n.wf && wfList ns

end

/-- The two mutable variables of the script: `html_content` and
`text_content`, both initialised to `None` (lines 27-28). -/
structure Extracted where
  html : Option String
  text : Option String
deriving Repr, DecidableEq

/-- One iteration of the walk loop (lines 31-37): on a `text/html` part the
HTML slot is overwritten, on a `text/plain` part the text slot is overwritten,
anything else is skipped.  Note there is no `if html_content is None` guard in
the source, so a later match replaces an earlier one. -/
def stepPart (acc : Extracted) (part : MimeNode) : Extracted :=
  if part.getContentType = "text/html" then
    { acc with html := some part.getContent }
  else if part.getContentType = "text/plain" then
    { acc with text := some part.getContent }
  else
    acc

/-- The extraction phase (lines 30-44): fold the loop body over the walk when
multipart, otherwise classify the message itself by its own content type. -/
def extractParts (msg : Message) : Extracted :=
  if msg.isMultipart then
    (msg.root.walk).foldl stepPart { html := none, text := none }
  else
    if msg.root.getContentType = "text/html" then
      { html := some msg.root.getContent, text := none }
    else
      { html := none, text := some msg.root.getContent }

/-- Python truthiness of an optional string: `None` and `""` are falsy.  This
is the test `if html_content:` / `if text_content:` of lines 47 and 55. -/
def truthy : Option String → Bool
  | none => false
  | some s => !(s == "")

/-- A file written by the script: target name and the text written. -/
structure FileWrite where
  name : String
  content : String
deriving Repr, DecidableEq

/-- The observable result of a run: exit status, lines printed to standard
output, and the files written (in order). -/
structure RunResult where
  exitCode : Nat
  stdout : List String
  writes : List FileWrite
deriving Repr, DecidableEq

/-- The output phase (lines 46-65): write `extracted-email.html` when the
HTML slot is truthy and print its size as `len(html_content)` (a character
count), else print the absence diagnostic; symmetrically for the text slot;
then the closing hint lines.  Returns (stdout lines, file writes). -/
def outputPhase (html_content text_content : Option String) :
    List String × List FileWrite :=
  let htmlPart :=
    if truthy html_content then
      (["✅ Saved HTML to: extracted-email.html",
        "   Size: " ++ toString (html_content.getD "").length ++ " bytes"],
       [FileWrite.mk "extracted-email.html" (html_content.getD "")])
    else
      (["⚠️  No HTML part found"], [])
  let textPart :=
    if truthy text_content then
      (["✅ Saved text to: extracted-email.txt",
        "   Size: " ++ toString (text_content.getD "").length ++ " bytes"],
       [FileWrite.mk "extracted-email.txt" (text_content.getD "")])
    else
      (["⚠️  No text part found"], [])
  (htmlPart.1 ++ textPart.1 ++
     ["", "Next step:",
      "  ./test-email.sh extracted-email.html extracted-email.txt"],
   htmlPart.2 ++ textPart.2)

/-- Lines 21-65 of the script, given the parsed message: header summary,
extraction, output phase.  The script reaches its end, so the exit status is
0. -/
def processMessage (msg : Message) : RunResult :=
  let ex := extractParts msg
  let out := outputPhase ex.html ex.text
  { exitCode := 0,
    stdout := ["📧 Email: " ++ msg.subject.getD "No subject",
               "From: " ++ msg.fromAddr.getD "Unknown",
               "Content-Type: " ++ msg.root.getContentType,
               ""] ++ out.1,
    writes := out.2 }

/-!
A refinement for single-part messages.  `EmailMessage.get_content()` under
`policy.default` returns a decoded `str` only for `text/*` parts; for any
other maintype (e.g. `application/octet-stream`) it returns the raw payload
as `bytes`.  A non-empty `bytes` value is truthy, so the script then reaches
`f.write(text_content)` on a file opened in text mode, which raises
`TypeError`: the run dies with an uncaught exception (exit status 1, the
traceback on standard error) and `extracted-email.txt` is left behind
truncated to empty by `open(..., 'w')`.  The model below mirrors lines 39-65
for a single-part message while keeping the `str` / `bytes` distinction.
-/

/-- What `msg.get_content()` returns on a single-part message: a decoded
string for a `text/*` content type, the raw payload bytes otherwise. -/
inductive Payload where
  | str (s : String)
  | bytes (b : List Nat)
deriving Repr, DecidableEq

/-- A single-part message with its headers, declared content type and the
value `get_content()` returns for it. -/
structure SinglePartMsg where
  subject : Option String
  fromAddr : Option String
  contentType : String
  payload : Payload
deriving Repr, DecidableEq

/-- Whether a content type string is of the `text/...` family (checked on the
character list so that it evaluates by `decide`). -/
def isTextType (ct : String) : Bool :=
  ct.data.take 5 == "text/".data

/-- Faithfulness of a single-part message to the library: `get_content()`
yields `str` exactly for `text/*` content types and `bytes` otherwise. -/
def SinglePartMsg.wf (m : SinglePartMsg) : Bool :=
  match m.payload with
  | .str _ => isTextType m.contentType
  | .bytes _ => !(isTextType m.contentType)

/-- Lines 39-44 for a single-part message: classify by the message's own
content type; `text/html` fills the HTML slot, anything else fills the text
slot, with no further type checking. -/
def singlePartClassify (m : SinglePartMsg) :
    Option Payload × Option Payload :=
  if m.contentType = "text/html" then (some m.payload, none)
  else (none, some m.payload)

/-- One output section of lines 46-61 over a `Payload`-typed slot: returns
(lines printed, resulting file content if the `open` happened, crashed?).
`None`, `""` and `b""` are all falsy, so they print the absence line and
touch nothing.  A non-empty `str` is written and the two success lines
printed.  A non-empty `bytes` value passes the truthiness test, `open(...,
'w')` truncates/creates the file, and `f.write` raises `TypeError` before
any success line is printed, leaving the file empty. -/
def writeSection (content : Option Payload) (okLine : String)
    (sizeTag : String) (absenceLine : String) :
    List String × Option String × Bool :=
  match content with
  | none => ([absenceLine], none, false)
  | some (.str s) =>
    if s == "" then ([absenceLine], none, false)
    else ([okLine, sizeTag ++ toString s.length ++ " bytes"], some s, false)
  | some (.bytes b) =>
    if b.isEmpty then ([absenceLine], none, false)
    else ([], some "", true)

/-- The observable result of a single-part run under the refined model:
exit status, standard-output lines, the contents of the two output files
afterwards (`none` = not touched), and whether the run died on an uncaught
exception. -/
structure SingleRunResult where
  exitCode : Nat
  stdout : List String
  htmlFile : Option String
  txtFile : Option String
  crashed : Bool
deriving Repr, DecidableEq

/-- Lines 21-65 for a single-part message, with the `str` / `bytes`
distinction kept: header summary, classification, HTML section, then (unless
the HTML section crashed) the text section, then (unless something crashed)
the hint lines.  `htmlFile` / `txtFile` are the contents of the two output
files afterwards (`none` = file not touched); an uncaught `TypeError` sets
`crashed` and exit status 1. -/
def runSinglePart (m : SinglePartMsg) : SingleRunResult :=
  let slots := singlePartClassify m
  let header := ["📧 Email: " ++ m.subject.getD "No subject",
                 "From: " ++ m.fromAddr.getD "Unknown",
                 "Content-Type: " ++ m.contentType,
                 ""]
  let hs := writeSection slots.1 "✅ Saved HTML to: extracted-email.html"
    "   Size: " "⚠️  No HTML part found"
  if hs.2.2 then
    { exitCode := 1, stdout := header ++ hs.1,
      htmlFile := hs.2.1, txtFile := none, crashed := true }
  else
    let ts := writeSection slots.2 "✅ Saved text to: extracted-email.txt"
      "   Size: " "⚠️  No text part found"
    if ts.2.2 then
      { exitCode := 1, stdout := header ++ hs.1 ++ ts.1,
        htmlFile := hs.2.1, txtFile := ts.2.1, crashed := true }
    else
      { exitCode := 0,
        stdout := header ++ hs.1 ++ ts.1 ++
          ["", "Next step:",
           "  ./test-email.sh extracted-email.html extracted-email.txt"],
        htmlFile := hs.2.1, txtFile := ts.2.1, crashed := false }

/-!
The read step of the script (line 18) opens the input file with
`encoding='utf-8', errors='ignore'`: bytes that do not form valid UTF-8 are
dropped and decoding continues after them, following CPython's maximal-subpart
error handling.  The decoder below works on byte lists and produces the list
of decoded scalar values; `utf8DecodeStrict` is the same scan with the
`strict` error handler (it fails on the first invalid sequence), used to state
what "dropping the undecodable bytes" means.
-/

def isCont (b : Nat) : Bool := 0x80 ≤ b && b ≤ 0xBF

def cont3ok (b0 b1 : Nat) : Bool :=
  if b0 = 0xE0 then 0xA0 ≤ b1 && b1 ≤ 0xBF
  else if b0 = 0xED then 0x80 ≤ b1 && b1 ≤ 0x9F
  else isCont b1

def cont4ok (b0 b1 : Nat) : Bool :=
  if b0 = 0xF0 then 0x90 ≤ b1 && b1 ≤ 0xBF
  else if b0 = 0xF4 then 0x80 ≤ b1 && b1 ≤ 0x8F
  else isCont b1

def utf8Next4 (b0 b1 b2 b3 : Nat) : Option Nat × Nat :=
  if b0 < 0x80 then (some b0, 1)
  else if 0xC2 ≤ b0 && b0 ≤ 0xDF then
    if isCont b1 then (some ((b0 - 0xC0) * 0x40 + (b1 - 0x80)), 2)
    else (none, 1)
  else if 0xE0 ≤ b0 && b0 ≤ 0xEF then
    if cont3ok b0 b1 then
      if isCont b2 then
        (some ((b0 - 0xE0) * 0x1000 + (b1 - 0x80) * 0x40 + (b2 - 0x80)), 3)
      else (none, 2)
    else (none, 1)
  else if 0xF0 ≤ b0 && b0 ≤ 0xF4 then
    if cont4ok b0 b1 then
      if isCont b2 then
        if isCont b3 then
          (some ((b0 - 0xF0) * 0x40000 + (b1 - 0x80) * 0x1000 + (b2 - 0x80) * 0x40 + (b3 - 0x80)), 4)
        else (none, 3)
      else (none, 2)
    else (none, 1)
  else (none, 1)

def utf8Next (l : List Nat) : Option Nat × Nat :=
  match l with
  | [] => (none, 0)
  | b0 :: rest => utf8Next4 b0 (rest.getD 0 0x100) (rest.getD 1 0x100) (rest.getD 2 0x100)

def utf8DecodeIgnore (l : List Nat) : List Nat :=
  if hl : l = [] then []
  else
    match (utf8Next l).1 with
    | some c => c :: utf8DecodeIgnore (l.drop (utf8Next l).2)
    | none => utf8DecodeIgnore (l.drop (utf8Next l).2)
termination_by l.length
decreasing_by
  all_goals
    have h1 : 1 ≤ (utf8Next l).2 := by
      rcases l with _ | ⟨b, rest⟩
      · simp at hl
      · simp only [utf8Next]
        rw [utf8Next4]
        split_ifs <;> simp
    have h2 : 0 < l.length := List.length_pos.mpr hl
    simp only [List.length_drop]
    omega

def utf8DecodeStrict (l : List Nat) : Except Nat (List Nat) :=
  if hl : l = [] then Except.ok []
  else
    match (utf8Next l).1 with
    | some c =>
      (utf8DecodeStrict (l.drop (utf8Next l).2)).map (fun cs => c :: cs)
    | none => Except.error (l.getD 0 0)
termination_by l.length
decreasing_by
  all_goals
    have h1 : 1 ≤ (utf8Next l).2 := by
      rcases l with _ | ⟨b, rest⟩
      · simp at hl
      · simp only [utf8Next]
        rw [utf8Next4]
        split_ifs <;> simp
    have h2 : 0 < l.length := List.length_pos.mpr hl
    simp only [List.length_drop]
    omega

/-- The whole script.  `argv` is `sys.argv` (program name first); `fs` maps a
path to the raw bytes of the file at that path, when it exists; `parse` stands
for `email.message_from_file` with `policy.default` applied to the decoded
text (a parameter of the model, since the MIME grammar lives in the library).
Lines 11-13: missing-argument check; line 18: read with permissive UTF-8
decoding; line 19: parse; lines 21-65: `processMessage`.  A missing input
file is an uncaught `FileNotFoundError`: exit status 1 (traceback goes to
standard error), nothing on standard output, no file written. -/
def run (parse : String → Message) (argv : List String)
    (fs : String → Option (List Nat)) : RunResult :=
  if argv.length < 2 then
    { exitCode := 1,
      stdout := ["Usage: python3 extract-email-parts.py email.txt"],
      writes := [] }
  else
    match fs (argv.getD 1 "") with
    | none => { exitCode := 1, stdout := [], writes := [] }
    | some bytes =>
      processMessage (parse (String.mk ((utf8DecodeIgnore bytes).map Char.ofNat)))

/-- The body of the last part of the given content type, in the given part
list: what the overwriting walk loop ends up keeping. -/
def lastBody (ct : String) (parts : List MimeNode) : Option String :=
  ((parts.filter fun p => p.getContentType == ct).getLast?).map MimeNode.getContent

/-- First message used to examine the walk loop: a `multipart/alternative`
message with two HTML parts and nothing else. -/
def msgTwoHtml : Message :=
  { subject := some "Your receipt",
    fromAddr := some "shop at example.com",
    root := MimeNode.multi "multipart/alternative"
      [MimeNode.leaf "text/html" "<p>first</p>",
       MimeNode.leaf "text/html" "<p>second</p>"] }

/-- A multipart message with exactly one `text/html` part whose decoded body
is empty, and one `text/plain` part. -/
def msgEmptyHtml : Message :=
  { subject := some "s",
    fromAddr := some "f",
    root := MimeNode.multi "multipart/alternative"
      [MimeNode.leaf "text/html" "",
       MimeNode.leaf "text/plain" "hello"] }

/-- A multipart message with one non-empty HTML part and one non-empty text
part. -/
def msgHtmlAndText : Message :=
  { subject := some "Order 1234",
    fromAddr := some "orders at example.com",
    root := MimeNode.multi "multipart/alternative"
      [MimeNode.leaf "text/plain" "plain words",
       MimeNode.leaf "text/html" "<p>rich words</p>"] }

/-- A single-part `application/octet-stream` message: `get_content()` returns
its payload as non-empty bytes. -/
def msgOctetBytes : SinglePartMsg :=
  { subject := some "s",
    fromAddr := some "f",
    contentType := "application/octet-stream",
    payload := Payload.bytes [0x72, 0x61, 0x77] }

/-- A single-part `text/plain` message with a non-empty decoded body. -/
def msgPlainSingle : SinglePartMsg :=
  { subject := some "note",
    fromAddr := some "me at example.com",
    contentType := "text/plain",
    payload := Payload.str "plain note" }

/-- A single-part HTML message whose body is one non-ASCII character: one
character, two bytes once UTF-8-encoded. -/
def msgAccentHtml : Message :=
  { subject := some "s",
    fromAddr := some "f",
    root := MimeNode.leaf "text/html" "é" }

/-- A multipart message containing only image parts. -/
def msgImagesOnly : Message :=
  { subject := some "photos",
    fromAddr := some "p at example.com",
    root := MimeNode.multi "multipart/mixed"
      [MimeNode.leaf "image/png" "PNG",
       MimeNode.leaf "image/jpeg" "JPG"] }

lemma isCont_sentinel : isCont 0x100 = false := by decide

lemma cont3ok_sentinel (b0 : Nat) : cont3ok b0 0x100 = false := by
  simp [cont3ok, isCont]

lemma cont4ok_sentinel (b0 : Nat) : cont4ok b0 0x100 = false := by
  simp [cont4ok, isCont]

lemma utf8Next4_pos (a b c d : Nat) : 1 ≤ (utf8Next4 a b c d).2 := by
  rw [utf8Next4]
  split_ifs <;> simp

lemma utf8Next_pos (b : Nat) (rest : List Nat) : 1 ≤ (utf8Next (b :: rest)).2 := by
  simp only [utf8Next]
  exact utf8Next4_pos _ _ _ _

lemma utf8Next4_ok_n (a b c d x n : Nat) (h : utf8Next4 a b c d = (some x, n)) :
    n = 1 ∨ n = 2 ∨ n = 3 ∨ n = 4 := by
  rw [utf8Next4] at h
  split_ifs at h <;> simp_all

lemma utf8Next4_le4 (a b c d : Nat) : (utf8Next4 a b c d).2 ≤ 4 := by
  rw [utf8Next4]
  split_ifs <;> simp

lemma utf8Next4_sent1 (a c d : Nat) : (utf8Next4 a 0x100 c d).2 ≤ 1 := by
  rw [utf8Next4]
  split_ifs <;> simp_all [isCont_sentinel, cont3ok_sentinel, cont4ok_sentinel]

lemma utf8Next4_sent2 (a b d : Nat) : (utf8Next4 a b 0x100 d).2 ≤ 2 := by
  rw [utf8Next4]
  split_ifs <;> simp_all [isCont_sentinel]

lemma utf8Next4_sent3 (a b c : Nat) : (utf8Next4 a b c 0x100).2 ≤ 3 := by
  rw [utf8Next4]
  split_ifs <;> simp_all [isCont_sentinel]

lemma utf8Next_le (l : List Nat) : (utf8Next l).2 ≤ l.length := by
  rcases l with _ | ⟨b0, _ | ⟨b1, _ | ⟨b2, _ | ⟨b3, tl⟩⟩⟩⟩ <;>
    simp only [utf8Next, List.getD_cons_zero, List.getD_cons_succ, List.getD_nil,
      List.length_cons, List.length_nil]
  · simp
  · exact le_trans (utf8Next4_sent1 _ _ _) (by omega)
  · exact le_trans (utf8Next4_sent2 _ _ _) (by omega)
  · exact le_trans (utf8Next4_sent3 _ _ _) (by omega)
  · exact le_trans (utf8Next4_le4 _ _ _ _) (by omega)

lemma utf8Next4_loc1 (a b c d x : Nat) (h : utf8Next4 a b c d = (some x, 1))
    (b' c' d' : Nat) : utf8Next4 a b' c' d' = (some x, 1) := by
  rw [utf8Next4] at h ⊢
  split_ifs at h ⊢ <;> simp_all

lemma utf8Next4_loc2 (a b c d x : Nat) (h : utf8Next4 a b c d = (some x, 2))
    (c' d' : Nat) : utf8Next4 a b c' d' = (some x, 2) := by
  rw [utf8Next4] at h ⊢
  split_ifs at h ⊢ <;> simp_all

lemma utf8Next4_loc3 (a b c d x : Nat) (h : utf8Next4 a b c d = (some x, 3))
    (d' : Nat) : utf8Next4 a b c d' = (some x, 3) := by
  rw [utf8Next4] at h ⊢
  split_ifs at h ⊢ <;> simp_all

lemma utf8Next_take_append (l X : List Nat) (c n : Nat)
    (h : utf8Next l = (some c, n)) :
    utf8Next (l.take n ++ X) = (some c, n) := by
  rcases l with _ | ⟨b0, rest⟩
  · simp [utf8Next] at h
  simp only [utf8Next] at h
  have hn := utf8Next4_ok_n _ _ _ _ _ _ h
  have hle : n ≤ (b0 :: rest).length := by
    have hl := utf8Next_le (b0 :: rest)
    simp only [utf8Next] at hl
    rw [h] at hl
    exact hl
  rcases hn with rfl | rfl | rfl | rfl
  · simp only [List.take_succ_cons, List.take_zero, List.cons_append, List.nil_append,
      utf8Next]
    exact utf8Next4_loc1 _ _ _ _ _ h _ _ _
  · rcases rest with _ | ⟨b1, rest1⟩
    · simp at hle
    simp only [List.getD_cons_zero, List.getD_cons_succ] at h
    simp only [List.take_succ_cons, List.take_zero, List.cons_append, List.nil_append,
      utf8Next, List.getD_cons_zero, List.getD_cons_succ]
    exact utf8Next4_loc2 _ _ _ _ _ h _ _
  · rcases rest with _ | ⟨b1, _ | ⟨b2, rest2⟩⟩
    · simp at hle
    · simp at hle
    simp only [List.getD_cons_zero, List.getD_cons_succ] at h
    simp only [List.take_succ_cons, List.take_zero, List.cons_append, List.nil_append,
      utf8Next, List.getD_cons_zero, List.getD_cons_succ]
    exact utf8Next4_loc3 _ _ _ _ _ h _
  · rcases rest with _ | ⟨b1, _ | ⟨b2, _ | ⟨b3, rest3⟩⟩⟩
    · simp at hle
    · simp at hle
    · simp at hle
    simp only [List.getD_cons_zero, List.getD_cons_succ] at h
    simp only [List.take_succ_cons, List.take_zero, List.cons_append, List.nil_append,
      utf8Next, List.getD_cons_zero, List.getD_cons_succ]
    exact h

lemma utf8DecodeIgnore_nil : utf8DecodeIgnore [] = [] := by
  rw [utf8DecodeIgnore.eq_def]
  simp

lemma utf8DecodeStrict_nil : utf8DecodeStrict [] = Except.ok [] := by
  rw [utf8DecodeStrict.eq_def]
  simp

lemma utf8DecodeIgnore_ok (b : Nat) (rest : List Nat) (c n : Nat)
    (h : utf8Next (b :: rest) = (some c, n)) :
    utf8DecodeIgnore (b :: rest) = c :: utf8DecodeIgnore ((b :: rest).drop n) := by
  rw [utf8DecodeIgnore.eq_def]
  simp [h]

lemma utf8DecodeIgnore_bad (b : Nat) (rest : List Nat) (n : Nat)
    (h : utf8Next (b :: rest) = (none, n)) :
    utf8DecodeIgnore (b :: rest) = utf8DecodeIgnore ((b :: rest).drop n) := by
  rw [utf8DecodeIgnore.eq_def]
  simp [h]

lemma utf8DecodeStrict_ok (b : Nat) (rest : List Nat) (c n : Nat)
    (h : utf8Next (b :: rest) = (some c, n)) :
    utf8DecodeStrict (b :: rest) =
      (utf8DecodeStrict ((b :: rest).drop n)).map (fun cs => c :: cs) := by
  rw [utf8DecodeStrict.eq_def]
  simp [h]

lemma utf8_sublist_aux : ∀ (k : Nat) (l : List Nat), l.length ≤ k →
    ∃ l', l'.Sublist l ∧ utf8DecodeStrict l' = Except.ok (utf8DecodeIgnore l) := by
  intro k
  induction k with
  | zero =>
    intro l hl
    have hnil : l = [] := by cases l <;> simp_all
    subst hnil
    exact ⟨[], List.Sublist.refl _, by rw [utf8DecodeStrict_nil, utf8DecodeIgnore_nil]⟩
  | succ k ih =>
    intro l hl
    rcases l with _ | ⟨b, rest⟩
    · exact ⟨[], List.Sublist.refl _, by rw [utf8DecodeStrict_nil, utf8DecodeIgnore_nil]⟩
    rcases hu : utf8Next (b :: rest) with ⟨oc, n⟩
    have hpos : 1 ≤ n := by
      have hp := utf8Next_pos b rest
      rw [hu] at hp
      exact hp
    have hlen : ((b :: rest).drop n).length ≤ k := by
      simp only [List.length_drop, List.length_cons]
      simp only [List.length_cons] at hl
      omega
    obtain ⟨l2, hsub, hok⟩ := ih ((b :: rest).drop n) hlen
    rcases oc with _ | c
    · have hdec := utf8DecodeIgnore_bad b rest n hu
      exact ⟨l2, hsub.trans (List.drop_sublist _ _), by rw [hdec]; exact hok⟩
    · have hdec := utf8DecodeIgnore_ok b rest c n hu
      have hlen2 : n ≤ (b :: rest).length := by
        have hl2 := utf8Next_le (b :: rest)
        rw [hu] at hl2
        exact hl2
      refine ⟨(b :: rest).take n ++ l2, ?_, ?_⟩
      · have h1 : ((b :: rest).take n ++ l2).Sublist
            ((b :: rest).take n ++ (b :: rest).drop n) := hsub.append_left _
        rwa [List.take_append_drop] at h1
      · have hstep := utf8Next_take_append (b :: rest) l2 c n hu
        rcases ht : (b :: rest).take n with _ | ⟨tb, ttl⟩
        · exfalso
          have hlt := congrArg List.length ht
          simp only [List.length_take, List.length_nil] at hlt
          omega
        rw [ht] at hstep
        have htlen : (tb :: ttl).length = n := by
          have hlt := congrArg List.length ht
          simp only [List.length_take] at hlt
          omega
        have hstrict := utf8DecodeStrict_ok tb (ttl ++ l2) c n
          (by simpa using hstep)
        have hdrop : (tb :: (ttl ++ l2)).drop n = l2 := by
          have hq : ((tb :: ttl) ++ l2).drop (tb :: ttl).length = l2 :=
            List.drop_left _ _
          rw [htlen] at hq
          simpa using hq
        rw [hdec]
        simp only [List.cons_append]
        rw [hstrict, hdrop, hok]
        rfl

lemma stepPart_html (acc : Extracted) (p : MimeNode) :
    (stepPart acc p).html =
      if p.getContentType == "text/html" then some p.getContent else acc.html := by
  rw [stepPart]
  split_ifs with h1 h2 <;> simp_all

lemma stepPart_text (acc : Extracted) (p : MimeNode) :
    (stepPart acc p).text =
      if p.getContentType == "text/plain" then some p.getContent else acc.text := by
  rw [stepPart]
  split_ifs with h1 h2 <;> simp_all

lemma lastBody_cons (ct : String) (p : MimeNode) (ps : List MimeNode) :
    lastBody ct (p :: ps) =
      (lastBody ct ps).or
        (if p.getContentType == ct then some p.getContent else none) := by
  rw [lastBody, lastBody, List.filter_cons]
  split_ifs with hp
  · cases hq : ps.filter (fun q => q.getContentType == ct) with
    | nil => simp [Option.or]
    | cons q qs =>
      rw [List.getLast?_cons_cons]
      cases hl : (q :: qs).getLast? with
      | none => simp at hl
      | some r => simp [Option.or]
  · cases hq : ps.filter (fun q => q.getContentType == ct) with
    | nil => simp [Option.or]
    | cons q qs =>
      cases hl : (q :: qs).getLast? with
      | none => simp at hl
      | some r => simp [Option.or]

lemma foldl_stepPart_html (parts : List MimeNode) (acc : Extracted) :
    (parts.foldl stepPart acc).html = (lastBody "text/html" parts).or acc.html := by
  induction parts generalizing acc with
  | nil => simp [lastBody, Option.or]
  | cons p ps ih =>
    rw [List.foldl_cons, ih, lastBody_cons, stepPart_html]
    rcases hq : lastBody "text/html" ps with _ | v <;>
      split_ifs <;>
      first | rfl | simp [Option.or]

lemma foldl_stepPart_text (parts : List MimeNode) (acc : Extracted) :
    (parts.foldl stepPart acc).text = (lastBody "text/plain" parts).or acc.text := by
  induction parts generalizing acc with
  | nil => simp [lastBody, Option.or]
  | cons p ps ih =>
    rw [List.foldl_cons, ih, lastBody_cons, stepPart_text]
    rcases hq : lastBody "text/plain" ps with _ | v <;>
      split_ifs <;>
      first | rfl | simp [Option.or]

lemma extractParts_multipart (msg : Message) (h : msg.isMultipart = true) :
    (extractParts msg).html = lastBody "text/html" msg.root.walk ∧
    (extractParts msg).text = lastBody "text/plain" msg.root.walk := by
  rw [extractParts]
  simp only [h, if_true]
  refine ⟨?_, ?_⟩
  · rw [foldl_stepPart_html]
    cases lastBody "text/html" msg.root.walk <;> simp [Option.or]
  · rw [foldl_stepPart_text]
    cases lastBody "text/plain" msg.root.walk <;> simp [Option.or]

lemma lastBody_of_map_singleton (ct : String) (parts : List MimeNode) (s : String)
    (h : (parts.filter fun p => p.getContentType == ct).map MimeNode.getContent
      = [s]) :
    lastBody ct parts = some s := by
  rw [lastBody]
  cases hf : parts.filter (fun p => p.getContentType == ct) with
  | nil => rw [hf] at h; simp at h
  | cons p ps =>
    rw [hf] at h
    simp only [List.map_cons, List.cons.injEq] at h
    obtain ⟨h1, h2⟩ := h
    have hps : ps = [] := by
      cases ps with
      | nil => rfl
      | cons r rs => simp at h2
    subst hps
    simp [h1]

/-- C1 counterexample: in a multipart message with two `text/html` parts the
output file holds the SECOND part's body, not the first: the walk loop
overwrites `html_content` on every match (no `is None` guard on lines 34-35),
so the claim "the body written is that of the first matching part" is false
on this input. -/
theorem mc1_first_wins_false :
    (processMessage msgTwoHtml).writes =
      [FileWrite.mk "extracted-email.html" "<p>second</p>"] ∧
    "<p>second</p>" ≠ "<p>first</p>" := by
  decide

/-- C1 (amended): for a well-formed multipart message, the retained HTML body
(and symmetrically the retained text body) is that of the LAST matching part
in depth-first document order; earlier matching parts are overwritten and
ignored. -/
theorem mc1_last_match_retained (msg : Message) (hmp : msg.isMultipart = true)
    (hwf : msg.root.wf = true) :
    (extractParts msg).html = lastBody "text/html" msg.root.walk ∧
    (extractParts msg).text = lastBody "text/plain" msg.root.walk :=
  extractParts_multipart msg hmp

/-- Witness for the amended C1 theorem at the two-HTML message. -/
theorem mc1_last_match_retained_witness :
    (msgTwoHtml.isMultipart = true ∧ msgTwoHtml.root.wf = true) ∧
    ((extractParts msgTwoHtml).html = lastBody "text/html" msgTwoHtml.root.walk ∧
     (extractParts msgTwoHtml).text = lastBody "text/plain" msgTwoHtml.root.walk) :=
  ⟨⟨by decide, by decide⟩, mc1_last_match_retained msgTwoHtml (by decide) (by decide)⟩

/-- C2 counterexample: this message has exactly one `text/html` part (decoded
body `""`) and exactly one `text/plain` part, yet only `extracted-email.txt`
is written: the output phase tests string truthiness (line 47), so the empty
HTML body is treated as absent and `extracted-email.html` is never created.
The claim "the run writes both output files" is false on this input. -/
theorem mc2_both_written_false :
    ((msgEmptyHtml.root.walk.filter fun p => p.getContentType == "text/html").map
      MimeNode.getContent = [""]) ∧
    ((msgEmptyHtml.root.walk.filter fun p => p.getContentType == "text/plain").map
      MimeNode.getContent = ["hello"]) ∧
    (processMessage msgEmptyHtml).writes =
      [FileWrite.mk "extracted-email.txt" "hello"] := by
  decide

/-- C2 (amended): for a multipart message with exactly one `text/html` part
and exactly one `text/plain` part, both of whose decoded bodies are
non-empty, the run writes both output files, each byte-for-byte equal to the
corresponding decoded body. -/
theorem mc2_both_files_written (msg : Message) (hmp : msg.isMultipart = true)
    (h t : String)
    (hh : (msg.root.walk.filter fun p => p.getContentType == "text/html").map
      MimeNode.getContent = [h])
    (ht : (msg.root.walk.filter fun p => p.getContentType == "text/plain").map
      MimeNode.getContent = [t])
    (hne : h ≠ "") (tne : t ≠ "") :
    (processMessage msg).writes =
      [FileWrite.mk "extracted-email.html" h,
       FileWrite.mk "extracted-email.txt" t] := by
  obtain ⟨eh, et⟩ := extractParts_multipart msg hmp
  rw [lastBody_of_map_singleton _ _ _ hh] at eh
  rw [lastBody_of_map_singleton _ _ _ ht] at et
  simp [processMessage, outputPhase, truthy, eh, et, hne, tne]

/-- Witness for the amended C2 theorem. -/
theorem mc2_both_files_written_witness :
    (msgHtmlAndText.isMultipart = true ∧
     (msgHtmlAndText.root.walk.filter fun p => p.getContentType == "text/html").map
       MimeNode.getContent = ["<p>rich words</p>"] ∧
     (msgHtmlAndText.root.walk.filter fun p => p.getContentType == "text/plain").map
       MimeNode.getContent = ["plain words"] ∧
     "<p>rich words</p>" ≠ "" ∧ "plain words" ≠ "") ∧
    (processMessage msgHtmlAndText).writes =
      [FileWrite.mk "extracted-email.html" "<p>rich words</p>",
       FileWrite.mk "extracted-email.txt" "plain words"] :=
  ⟨⟨by decide, by decide, by decide, by decide, by decide⟩,
   mc2_both_files_written msgHtmlAndText (by decide) _ _ (by decide) (by decide)
     (by decide) (by decide)⟩

/-- C3 counterexample: a single-part `application/octet-stream` message with
a non-empty payload.  `get_content()` returns bytes, the non-empty bytes pass
the truthiness test of line 55, `open(..., 'w')` truncates
`extracted-email.txt`, and `f.write` on the text-mode file raises
`TypeError`: the run crashes with exit status 1, the success line is never
printed, and the file is left empty - the body is not written, so the claim
"its decoded body ... is written to extracted-email.txt" is false on this
input. -/
theorem mc3_single_nonhtml_written_false :
    msgOctetBytes.contentType ≠ "text/html" ∧
    (runSinglePart msgOctetBytes).crashed = true ∧
    (runSinglePart msgOctetBytes).exitCode = 1 ∧
    (runSinglePart msgOctetBytes).txtFile = some "" ∧
    "✅ Saved text to: extracted-email.txt" ∉
      (runSinglePart msgOctetBytes).stdout := by
  decide

/-- C3 (amended): for a single-part message whose declared content type is
anything other than `text/html`, the value `get_content()` returns is
retained as the text content with no further type checking, and the HTML
output file is never touched.  The body is actually written to
`extracted-email.txt` only when it is a non-empty decoded string (which the
library produces exactly for `text/*` types); an empty string body is
treated as absent, a non-empty bytes body (any non-text type) makes the
text-mode write raise `TypeError` - the run crashes with exit status 1
leaving `extracted-email.txt` truncated empty, so the body is never written -
and an empty bytes body is treated as absent. -/
theorem mc3_single_nonhtml_to_text (m : SinglePartMsg)
    (hwf : m.wf = true) (hct : m.contentType ≠ "text/html") :
    (singlePartClassify m).1 = none ∧
    (singlePartClassify m).2 = some m.payload ∧
    (runSinglePart m).htmlFile = none ∧
    (∀ s, m.payload = Payload.str s →
      (runSinglePart m).txtFile = (if s == "" then none else some s) ∧
      (runSinglePart m).exitCode = 0 ∧
      (runSinglePart m).crashed = false) ∧
    (∀ b, m.payload = Payload.bytes b → b ≠ [] →
      (runSinglePart m).crashed = true ∧
      (runSinglePart m).exitCode = 1 ∧
      (runSinglePart m).txtFile = some "") ∧
    (∀ b, m.payload = Payload.bytes b → b = [] →
      (runSinglePart m).txtFile = none ∧
      (runSinglePart m).crashed = false) := by
  refine ⟨?_, ?_, ?_, ?_, ?_, ?_⟩
  · rw [singlePartClassify, if_neg hct]
  · rw [singlePartClassify, if_neg hct]
  · rcases hpl : m.payload with s | b <;>
      simp [runSinglePart, singlePartClassify, writeSection, hct, hpl] <;>
      split_ifs <;>
      simp
  · intro s hpl
    simp only [runSinglePart, singlePartClassify, writeSection, if_neg hct, hpl]
    split_ifs <;> first | contradiction | simp
  · intro b hpl hb
    rcases b with _ | ⟨x, xs⟩
    · exact absurd rfl hb
    · simp [runSinglePart, singlePartClassify, writeSection, hct, hpl]
  · intro b hpl hb
    subst hb
    simp [runSinglePart, singlePartClassify, writeSection, hct, hpl]

/-- Witness for the amended C3 theorem at a single-part `text/plain` message
with a non-empty body, exercising the successful-write branch. -/
theorem mc3_single_nonhtml_to_text_witness :
    (msgPlainSingle.wf = true ∧ msgPlainSingle.contentType ≠ "text/html") ∧
    ((singlePartClassify msgPlainSingle).1 = none ∧
     (singlePartClassify msgPlainSingle).2 = some msgPlainSingle.payload ∧
     (runSinglePart msgPlainSingle).htmlFile = none ∧
     (∀ s, msgPlainSingle.payload = Payload.str s →
       (runSinglePart msgPlainSingle).txtFile =
         (if s == "" then none else some s) ∧
       (runSinglePart msgPlainSingle).exitCode = 0 ∧
       (runSinglePart msgPlainSingle).crashed = false) ∧
     (∀ b, msgPlainSingle.payload = Payload.bytes b → b ≠ [] →
       (runSinglePart msgPlainSingle).crashed = true ∧
       (runSinglePart msgPlainSingle).exitCode = 1 ∧
       (runSinglePart msgPlainSingle).txtFile = some "") ∧
     (∀ b, msgPlainSingle.payload = Payload.bytes b → b = [] →
       (runSinglePart msgPlainSingle).txtFile = none ∧
       (runSinglePart msgPlainSingle).crashed = false)) :=
  ⟨⟨by decide, by decide⟩,
   mc3_single_nonhtml_to_text msgPlainSingle (by decide) (by decide)⟩

/-- C4: the success line prints `len(html_content)` (line 51), which counts
characters of the decoded Python string, not bytes of the UTF-8-encoded file
content, although the line itself says "bytes".  On this message the body is
one character but the written file is two bytes, so the printed size is 1
while the byte length of the written content is 2. -/
theorem mc4_size_line_counts_chars :
    (processMessage msgAccentHtml).writes =
      [FileWrite.mk "extracted-email.html" "é"] ∧
    "   Size: 1 bytes" ∈ (processMessage msgAccentHtml).stdout ∧
    ("é" : String).utf8ByteSize = 2 ∧ (1 : Nat) ≠ 2 := by
  decide

/-- C5: with fewer than two entries in `sys.argv` (no path argument), the run
prints exactly the usage line to standard output, exits with status 1, and
writes no file (lines 11-13). -/
theorem mc5_usage_when_no_argument (parse : String → Message)
    (argv : List String) (fs : String → Option (List Nat))
    (h : argv.length < 2) :
    run parse argv fs =
      { exitCode := 1,
        stdout := ["Usage: python3 extract-email-parts.py email.txt"],
        writes := [] } := by
  simp [run, h]

/-- Witness for the C5 theorem: invocation with the program name only. -/
theorem mc5_usage_when_no_argument_witness :
    (["extract-email-parts.py"] : List String).length < 2 ∧
    run (fun _ => Message.mk none none (MimeNode.leaf "text/plain" "x"))
        ["extract-email-parts.py"] (fun _ => none) =
      { exitCode := 1,
        stdout := ["Usage: python3 extract-email-parts.py email.txt"],
        writes := [] } :=
  ⟨by decide,
   mc5_usage_when_no_argument (fun _ => Message.mk none none
     (MimeNode.leaf "text/plain" "x")) ["extract-email-parts.py"]
     (fun _ => none) (by decide)⟩

/-- C6: for a multipart message none of whose parts is `text/html` or
`text/plain`, the run exits 0, prints both absence diagnostics, and writes no
file. -/
theorem mc6_nothing_found (msg : Message) (hmp : msg.isMultipart = true)
    (hnone : ∀ p ∈ msg.root.walk,
      p.getContentType ≠ "text/html" ∧ p.getContentType ≠ "text/plain") :
    (processMessage msg).exitCode = 0 ∧
    "⚠️  No HTML part found" ∈ (processMessage msg).stdout ∧
    "⚠️  No text part found" ∈ (processMessage msg).stdout ∧
    (processMessage msg).writes = [] := by
  obtain ⟨eh, et⟩ := extractParts_multipart msg hmp
  have hfh : msg.root.walk.filter (fun p => p.getContentType == "text/html") = [] := by
    rw [List.filter_eq_nil_iff]
    intro p hp
    simpa using (hnone p hp).1
  have hft : msg.root.walk.filter (fun p => p.getContentType == "text/plain") = [] := by
    rw [List.filter_eq_nil_iff]
    intro p hp
    simpa using (hnone p hp).2
  rw [lastBody, hfh] at eh
  rw [lastBody, hft] at et
  simp only [List.getLast?_nil, Option.map_none] at eh et
  simp [processMessage, outputPhase, truthy, eh, et]

/-- Witness for the C6 theorem at the images-only message. -/
theorem mc6_nothing_found_witness :
    (msgImagesOnly.isMultipart = true ∧
     ∀ p ∈ msgImagesOnly.root.walk,
       p.getContentType ≠ "text/html" ∧ p.getContentType ≠ "text/plain") ∧
    ((processMessage msgImagesOnly).exitCode = 0 ∧
     "⚠️  No HTML part found" ∈ (processMessage msgImagesOnly).stdout ∧
     "⚠️  No text part found" ∈ (processMessage msgImagesOnly).stdout ∧
     (processMessage msgImagesOnly).writes = []) :=
  ⟨⟨by decide, by decide⟩,
   mc6_nothing_found msgImagesOnly (by decide) (by decide)⟩

/-- C7: for a single-part `text/html` message nothing is ever written to
`extracted-email.txt`, the "no text part" diagnostic is printed, and the only
write that can happen is the HTML file (written exactly when the body is
non-empty). -/
theorem mc7_single_html_frame (s f : Option String) (body : String) :
    ((processMessage (Message.mk s f (MimeNode.leaf "text/html" body))).writes.filter
      fun w => w.name == "extracted-email.txt") = [] ∧
    "⚠️  No text part found" ∈
      (processMessage (Message.mk s f (MimeNode.leaf "text/html" body))).stdout ∧
    (processMessage (Message.mk s f (MimeNode.leaf "text/html" body))).writes =
      (if body == "" then [] else [FileWrite.mk "extracted-email.html" body]) := by
  by_cases hb : body = ""
  · subst hb
    simp [processMessage, extractParts, outputPhase, truthy, Message.isMultipart,
      MimeNode.getContentType, MimeNode.getContent]
  · simp [processMessage, extractParts, outputPhase, truthy, Message.isMultipart,
      MimeNode.getContentType, MimeNode.getContent, hb]

/-- C8: the permissive decode of line 18 cannot fail, and what it does on any
byte list (valid UTF-8 or not) is exactly to drop the undecodable bytes: some
subsequence of the input decodes strictly (without any error) to precisely the
output of the permissive decoder. -/
theorem mc8_decode_never_raises (bytes : List Nat) :
    ∃ kept, kept.Sublist bytes ∧
      utf8DecodeStrict kept = Except.ok (utf8DecodeIgnore bytes) :=
  utf8_sublist_aux bytes.length bytes le_rfl

/-- C9: an empty retained body behaves exactly as an absent one: the output
phase yields the same console lines and the same writes as with `None`, the
absence diagnostic included, because lines 47 and 55 test string truthiness
and `""` is falsy. -/
theorem mc9_empty_body_as_absent (h t : Option String) :
    outputPhase (some "") t = outputPhase none t ∧
    outputPhase h (some "") = outputPhase h none ∧
    "⚠️  No HTML part found" ∈ (outputPhase (some "") t).1 ∧
    "⚠️  No text part found" ∈ (outputPhase h (some "")).1 := by
  refine ⟨rfl, rfl, ?_, ?_⟩
  · simp [outputPhase, truthy]
  · simp [outputPhase, truthy]

/-- C10: the run is deterministic, and its observable result (exit status,
console lines, file writes) is a function of the argument list and the bytes
of the input file alone: two runs over file systems that agree on the input
path produce identical results whatever the other files (including stale
output files) contain. -/
theorem mc10_run_deterministic (parse : String → Message) (argv : List String)
    (fs1 fs2 : String → Option (List Nat))
    (h : fs1 (argv.getD 1 "") = fs2 (argv.getD 1 "")) :
    run parse argv fs1 = run parse argv fs2 := by
  simp only [run, h]

/-- Witness for the C10 theorem: two file systems agreeing on the input path
but differing elsewhere. -/
theorem mc10_run_deterministic_witness :
    ((fun n : String => if n == "a.eml" then some [0x68, 0xFF] else none)
        ((["prog", "a.eml"] : List String).getD 1 "") =
      (fun n : String => if n == "a.eml" then some [0x68, 0xFF]
        else some [0x21]) ((["prog", "a.eml"] : List String).getD 1 "")) ∧
    run (fun _ => Message.mk none none (MimeNode.leaf "text/plain" "x"))
        ["prog", "a.eml"]
        (fun n => if n == "a.eml" then some [0x68, 0xFF] else none) =
      run (fun _ => Message.mk none none (MimeNode.leaf "text/plain" "x"))
        ["prog", "a.eml"]
        (fun n => if n == "a.eml" then some [0x68, 0xFF] else some [0x21]) :=
  ⟨by decide,
   mc10_run_deterministic _ _ _ _ (by decide)⟩

end ExtractEmail
